import Mathlib

/-!
Shallow embedding of caglar/RNN_Experiments (src/bricks.py, src/parser.py,
src/rnn/build_model/build_model_cw.py) and verification of the spec claims.

Theano float tensors are modelled over ℚ (the float values that actually
occur in the claims are exact small decimals and integer-valued counters).
2-D tensors of shape (batch, features) are `Matrix (Fin batch) (Fin dim) ℚ`.
The clockwork `time` state is allocated with shape (1,); every use of it in
the source goes through the scalar `time[0, 0]` or the elementwise `time + 1`,
both of which preserve the representation of the tensor by its single entry,
so it is modelled by that single entry, an integer counter.
-/

namespace RNNExp

/-- `ClockworkBase` brick from src/bricks.py: `dim` and `period` are the
constructor arguments; `activation` is the child brick passed to the
constructor (Tanh in build_model_cw), modelled as the elementwise function it
applies; `W` is the (dim, dim) weight allocated in `_allocate`. -/
structure ClockworkBase where
  dim : Nat
  period : Nat
  activation : ℚ → ℚ
  W : Matrix (Fin dim) (Fin dim) ℚ

/-- `ClockworkBase.apply` from src/bricks.py lines 109-135:
`next_states = ifelse(eq(time[0,0] % period, 0), activation(inputs + dot(states, W)), states)`;
then, only when a mask was given (`if mask:` in Python, where a symbolic mask
variable is truthy and the absent mask is None),
`next_states = mask[:,None] * next_states + (1 - mask[:,None]) * states`;
returns `(next_states, time + 1)`. -/
def ClockworkBase.apply (c : ClockworkBase) {batch : Nat}
    (inputs states : Matrix (Fin batch) (Fin c.dim) ℚ) (time : Int)
    (mask : Option (Fin batch → ℚ)) :
    Matrix (Fin batch) (Fin c.dim) ℚ × Int :=
  let gated : Matrix (Fin batch) (Fin c.dim) ℚ :=
    if time % (c.period : Int) = 0
    then (inputs + states * c.W).map c.activation
    else states
  let next_states : Matrix (Fin batch) (Fin c.dim) ℚ :=
    match mask with
    | some m => Matrix.of fun i j => m i * gated i j + (1 - m i) * states i j
    | none => gated
  (next_states, time + 1)

/-- `ClockworkBase.initial_states` from src/bricks.py: repeats the
`initial_state` parameter (allocated as zeros by `shared_floatx_zeros` in
`_allocate` and never re-initialized by `_initialize`) over the batch, and
returns the `initial_time` parameter (also allocated as zeros). -/
def ClockworkBase.initial_states (c : ClockworkBase) (batch_size : Nat) :
    Matrix (Fin batch_size) (Fin c.dim) ℚ × Int :=
  (Matrix.of fun _ _ => 0, 0)

/-- Repeated application of the brick's transition, as the recurrent scan
would perform it, starting from `initial_states`: step `n` feeds the `n`-th
input and mask together with the state and time left by step `n - 1`. -/
def ClockworkBase.iterate (c : ClockworkBase) {batch : Nat}
    (inputSeq : Nat → Matrix (Fin batch) (Fin c.dim) ℚ)
    (maskSeq : Nat → Option (Fin batch → ℚ)) :
    Nat → Matrix (Fin batch) (Fin c.dim) ℚ × Int
  | 0 => c.initial_states batch
  | n + 1 =>
    let prev := c.iterate inputSeq maskSeq n
    c.apply (inputSeq n) prev.1 prev.2 (maskSeq n)

/-- C1: for every call of ClockworkBase.apply with inputs, states and time and
no mask, the next state is activation(inputs + states · W) when
time mod period = 0 and is the unchanged previous states when
time mod period ≠ 0; the returned state depends on nothing but this test. -/
theorem clockwork_apply_periodic_gate (c : ClockworkBase) {batch : Nat}
    (inputs states : Matrix (Fin batch) (Fin c.dim) ℚ) (time : Int) :
    (time % (c.period : Int) = 0 →
      (c.apply inputs states time none).1 = (inputs + states * c.W).map c.activation) ∧
    (time % (c.period : Int) ≠ 0 →
      (c.apply inputs states time none).1 = states) := by
  constructor <;> intro h <;> simp [ClockworkBase.apply, h]

/-- Concrete instantiation of the periodic gate: a 1×1 brick of period 2,
applied at time 0 (gate fires) and at time 1 (state kept). -/
def cwbUnit : ClockworkBase :=
  ⟨1, 2, fun q => q + 1, Matrix.of fun _ _ => 3⟩

/-- A concrete 1×1 input tensor for the witnesses. -/
def inpUnit : Matrix (Fin 1) (Fin cwbUnit.dim) ℚ := Matrix.of fun _ _ => 5

/-- A concrete 1×1 state tensor for the witnesses. -/
def stUnit : Matrix (Fin 1) (Fin cwbUnit.dim) ℚ := Matrix.of fun _ _ => 7

theorem clockwork_apply_periodic_gate_witness :
    ((0 : Int) % ((cwbUnit.period : Nat) : Int) = 0 ∧
      (cwbUnit.apply inpUnit stUnit 0 none).1 =
        (inpUnit + stUnit * cwbUnit.W).map cwbUnit.activation) ∧
    ((1 : Int) % ((cwbUnit.period : Nat) : Int) ≠ 0 ∧
      (cwbUnit.apply inpUnit stUnit 1 none).1 = stUnit) := by
  refine ⟨⟨by decide, ?_⟩, ⟨by decide, ?_⟩⟩
  · exact (clockwork_apply_periodic_gate cwbUnit inpUnit stUnit 0).1 (by decide)
  · exact (clockwork_apply_periodic_gate cwbUnit inpUnit stUnit 1).2 (by decide)

/-- C8: when a mask is supplied, every batch row whose mask entry is 0 keeps
its previous state, whatever the clockwork period decided. -/
theorem clockwork_apply_mask_zero_keeps_state (c : ClockworkBase) {batch : Nat}
    (inputs states : Matrix (Fin batch) (Fin c.dim) ℚ) (time : Int)
    (m : Fin batch → ℚ) (i : Fin batch) (hm : m i = 0) :
    ∀ j, (c.apply inputs states time (some m)).1 i j = states i j := by
  intro j
  simp only [ClockworkBase.apply, Matrix.of_apply, hm]
  ring

theorem clockwork_apply_mask_zero_keeps_state_witness :
    ((fun _ : Fin 1 => (0 : ℚ)) 0 = 0) ∧
    (cwbUnit.apply inpUnit stUnit 0 (some fun _ => 0)).1 0 ⟨0, by decide⟩ =
      stUnit 0 ⟨0, by decide⟩ :=
  ⟨rfl, clockwork_apply_mask_zero_keeps_state cwbUnit inpUnit stUnit 0
    (fun _ => 0) 0 rfl ⟨0, by decide⟩⟩

/-- C9: the second component returned by apply is always time + 1, whatever
the period, mask, inputs and states; and since initial_states starts the time
at 0, after n applications the time counter equals exactly n. -/
theorem clockwork_time_counts_steps (c : ClockworkBase) {batch : Nat} :
    (∀ (inputs states : Matrix (Fin batch) (Fin c.dim) ℚ) (time : Int)
        (mask : Option (Fin batch → ℚ)),
      (c.apply inputs states time mask).2 = time + 1) ∧
    (∀ (inputSeq : Nat → Matrix (Fin batch) (Fin c.dim) ℚ)
        (maskSeq : Nat → Option (Fin batch → ℚ)) (n : Nat),
      (c.iterate inputSeq maskSeq n).2 = n) := by
  constructor
  · intro inputs states time mask
    rfl
  · intro inputSeq maskSeq n
    induction n with
    | zero => rfl
    | succ k ih =>
      show (c.apply (inputSeq k) _ _ (maskSeq k)).2 = _
      rw [show (c.apply (inputSeq k) (c.iterate inputSeq maskSeq k).1
            (c.iterate inputSeq maskSeq k).2 (maskSeq k)).2 =
          (c.iterate inputSeq maskSeq k).2 + 1 from rfl, ih]
      push_cast
      ring

/-- C10: applying the brick with an all-ones mask gives exactly the same
(next_states, time) pair as applying it with the mask omitted. -/
theorem clockwork_apply_ones_mask_eq_no_mask (c : ClockworkBase) {batch : Nat}
    (inputs states : Matrix (Fin batch) (Fin c.dim) ℚ) (time : Int) :
    c.apply inputs states time (some fun _ => 1) =
      c.apply inputs states time none := by
  unfold ClockworkBase.apply
  refine Prod.ext ?_ rfl
  ext i j
  simp only [Matrix.of_apply]
  ring

/-! ### src/parser.py -/

/-- A Python value stored as an argparse default (ints, floats — modelled
over ℚ, the occurring literals are exact decimals — and strings). -/
inductive PyVal where
  | vint : Int → PyVal
  | vfloat : ℚ → PyVal
  | vstr : String → PyVal
deriving DecidableEq, Repr

/-- The declared conversion type of an option. -/
inductive PyType where
  | tint
  | tfloat
  | tstr
deriving DecidableEq, Repr

/-- One registered option of the ArgumentParser: flag string, conversion
type, default (`none` models `argparse.SUPPRESS`, which omits the attribute
when the option is absent) and the optional `choices` list. -/
structure ArgSpec where
  flag : String
  ty : PyType
  dflt : Option PyVal
  choices : Option (List String)
deriving DecidableEq, Repr

/-- A raised Python exception: `attributeError obj attr` is the
AttributeError raised when attribute `attr` is looked up on an object of
class `obj` that does not define it. -/
inductive PyError where
  | attributeError : String → String → PyError
deriving DecidableEq, Repr

/-- `ArgumentParser.add_argument`: registers one more option. -/
def add_argument (p : List ArgSpec) (s : ArgSpec) : List ArgSpec :=
  p ++ [s]

/-- The body of `parse_args` in src/parser.py up to the point the parser
object is fully built, one `let` per source statement, in source order.
Line 8 reads `parser.add_argupent('--context', type=int, default=20)`: the
method name is misspelled, `ArgumentParser` has no attribute `add_argupent`,
so Python raises AttributeError right there — before the `--context` option
or any later option is registered and before `parser.parse_args()` runs. -/
def parse_args_specs : Except PyError (List ArgSpec) := do
  let p : List ArgSpec := []
  let p := add_argument p ⟨"--mini_batch_size", .tint, some (.vint 5), none⟩
  let p := add_argument p ⟨"--time_length", .tint, some (.vint 200), none⟩
  let _ ← (Except.error (PyError.attributeError "ArgumentParser" "add_argupent") :
    Except PyError Unit)
  let p := add_argument p ⟨"--context", .tint, some (.vint 20), none⟩
  let p := add_argument p ⟨"--load_path", .tstr, none, none⟩
  let p := add_argument p ⟨"--save_path", .tstr, none, none⟩
  let p := add_argument p ⟨"--patience", .tint, some (.vint 5), none⟩
  let p := add_argument p ⟨"--state_dim", .tint, some (.vint 1000), none⟩
  let p := add_argument p ⟨"--learning_rate", .tfloat, some (.vfloat (1 / 1000)), none⟩
  let p := add_argument p ⟨"--momentum", .tfloat, some (.vfloat (9 / 10)), none⟩
  let p := add_argument p ⟨"--clipping", .tfloat, some (.vfloat 10), none⟩
  let p := add_argument p ⟨"--algorithm", .tstr, some (.vstr "adam"),
    some ["rms_prop", "adam", "sgd"]⟩
  let p := add_argument p ⟨"--rnn_type", .tstr, some (.vstr "simple"),
    some ["lstm", "simple"]⟩
  let p := add_argument p ⟨"--dataset", .tstr, some (.vstr "penntree"),
    some ["wikipedia", "penntree"]⟩
  pure p

/-- The namespace argparse builds when no command-line token mentions an
option: every registered option takes its default; options whose default is
SUPPRESS are omitted. Attribute names drop the leading `--`. -/
def default_namespace (specs : List ArgSpec) : List (String × PyVal) :=
  specs.filterMap fun s => s.dflt.map fun v => (s.flag.drop 2, v)

/-- `parse_args` from src/parser.py: build the parser (which already raises,
see `parse_args_specs`), then hand `argv` to the framework's
`parser.parse_args()`; for an empty `argv` that call would return the
defaults namespace (its behaviour on non-empty command lines is framework
code we never reach and do not model further). -/
def parse_args (argv : List String) : Except PyError (List (String × PyVal)) := do
  let specs ← parse_args_specs
  match argv with
  | [] => pure (default_namespace specs)
  | _ :: _ => pure (default_namespace specs)

/-- C2 (code bug): on the empty command line parse_args does not return the
defaults namespace — it raises AttributeError at the misspelled
`add_argupent` call on line 8 of src/parser.py. -/
theorem parse_args_empty_raises :
    parse_args [] =
      Except.error (PyError.attributeError "ArgumentParser" "add_argupent") :=
  rfl

/-- C3 (code bug): not every observable error comes from the external
framework's graph construction or training — building the parser already
raises an AttributeError out of this repository's own misspelled statement
(line 8 of src/parser.py), whatever the command line, so the error predates
any framework work. -/
theorem parse_args_raises_repository_error :
    ∀ argv : List String,
      parse_args argv =
        Except.error (PyError.attributeError "ArgumentParser" "add_argupent") := by
  intro argv
  cases argv <;> rfl

/-! ### LookupTable (src/bricks.py) -/

/-- `LookupTable` brick: `W` is the (length, dim) embedding matrix, `b` the
(dim,) bias, both allocated in `_allocate`. -/
structure LookupTable (length dim : Nat) where
  W : Matrix (Fin length) (Fin dim) ℚ
  b : Fin dim → ℚ

/-- An integer tensor in row-major order: `shape` lists the extents of its
dimensions and `data` its entries, flattened. -/
structure IntTensor where
  shape : List Nat
  data : List Int
deriving DecidableEq, Repr

/-- A float tensor in row-major order, over ℚ. -/
structure QTensor where
  shape : List Nat
  data : List ℚ
deriving DecidableEq, Repr

/-- Row `ix` of `W[indices.flatten()] + b` at column `j`: `W[ix, j] + b[j]`
when `ix` is a valid row index (the only case numpy-style indexing defines;
entries out of `[0, length)` are given the junk value 0 here and are excluded
by the claims' validity hypothesis). -/
def embedEntry (t : LookupTable length dim) (ix : Int) (j : Fin dim) : ℚ :=
  if h : 0 ≤ ix ∧ ix.toNat < length then t.W ⟨ix.toNat, h.2⟩ j + t.b j else 0

/-- `LookupTable.apply` from src/bricks.py lines 54-72:
`output_shape = [indices.shape[i] for i in range(indices.ndim)] + [dim]`, and
the result is `W[indices.flatten()].reshape(output_shape) + b`. In row-major
order the gather followed by the reshape lays out, for each flattened index
entry in turn, the dim entries of its embedding row, and the trailing `+ b`
broadcasts over the last axis. -/
def LookupTable.apply (t : LookupTable length dim) (indices : IntTensor) :
    QTensor :=
  ⟨indices.shape ++ [dim],
    indices.data.flatMap fun ix => (List.finRange dim).map fun j => embedEntry t ix j⟩

/-- Indexing a row-major concatenation of equal-length blocks: entry
`q * m + j` of `l.bind f` is entry `j` of block `q`. -/
theorem bind_getD_block {α : Type} (f : α → List ℚ) (m : Nat)
    (hf : ∀ x, (f x).length = m) (dflt : α) :
    ∀ (l : List α) (q j : Nat), j < m → q < l.length →
      (l.flatMap f).getD (q * m + j) 0 = (f (l.getD q dflt)).getD j 0 := by
  intro l
  induction l with
  | nil => intro q j _ hq; simp at hq
  | cons a tl ih =>
    intro q j hj hq
    cases q with
    | zero =>
      have hlt : j < (f a).length := by rw [hf a]; exact hj
      simp only [List.flatMap_cons, Nat.zero_mul, Nat.zero_add, List.getD_cons_zero,
        List.getD_eq_getElem?_getD, List.getElem?_append_left hlt,
        List.getElem?_cons_zero, Option.getD_some]
    | succ q' =>
      have hidx : (q' + 1) * m + j = (f a).length + (q' * m + j) := by
        rw [hf a]; ring
      simp only [List.flatMap_cons, List.getD_cons_succ]
      rw [List.getD_eq_getElem?_getD, hidx, List.getElem?_append_right (by omega),
        Nat.add_sub_cancel_left, ← List.getD_eq_getElem?_getD]
      exact ih q' j hj (by simpa using hq)

/-- C5: for an index tensor with entries in [0, length), apply returns the
embedding matrix gathered at the flattened indices, reshaped to the index
tensor's shape with one extra trailing dimension of size dim, plus the bias:
the shape gains one dimension, and in row-major order the entry at flat
position q of the indices and embedding coordinate j is W[indices[q], j] + b[j]. -/
theorem lookup_apply_embeds (length dim : Nat) (t : LookupTable length dim)
    (ind : IntTensor) (q : Nat) (j : Fin dim)
    (hq : q < ind.data.length)
    (hvalid : ∀ x ∈ ind.data, 0 ≤ x ∧ x < (length : Int)) :
    (t.apply ind).shape = ind.shape ++ [dim] ∧
    (t.apply ind).shape.length = ind.shape.length + 1 ∧
    ∃ hlt : (ind.data.getD q 0).toNat < length,
      (t.apply ind).data.getD (q * dim + j.1) 0 =
        t.W ⟨(ind.data.getD q 0).toNat, hlt⟩ j + t.b j := by
  have hmem : ind.data.getD q 0 ∈ ind.data := by
    rw [List.getD_eq_getElem?_getD, List.getElem?_eq_getElem hq]
    exact List.getElem_mem hq
  obtain ⟨hge, hlt⟩ := hvalid _ hmem
  have hltn : (ind.data.getD q 0).toNat < length := by omega
  refine ⟨rfl, by simp [LookupTable.apply], hltn, ?_⟩
  have hstep : (t.apply ind).data.getD (q * dim + j.1) 0 =
      ((List.finRange dim).map fun k => embedEntry t (ind.data.getD q 0) k).getD j.1 0 := by
    exact bind_getD_block _ dim (by simp) 0 ind.data q j.1 j.2 hq
  rw [hstep, List.getD_eq_getElem?_getD, List.getElem?_map]
  rw [List.getElem?_eq_getElem (by simp [j.2])]
  simp only [Option.map_some', Option.getD_some, List.getElem_finRange]
  rw [embedEntry, dif_pos ⟨hge, hltn⟩]
  rfl

/-- A concrete 2-token lookup table over shape [2] indices for the witness. -/
def lutUnit : LookupTable 2 2 :=
  ⟨Matrix.of fun i j => (i.1 : ℚ) * 10 + j.1, fun j => (j.1 : ℚ) + 100⟩

theorem lookup_apply_embeds_witness :
    (1 < (IntTensor.mk [2] [1, 0]).data.length ∧
      ∀ x ∈ (IntTensor.mk [2] [1, 0]).data, 0 ≤ x ∧ x < (2 : Int)) ∧
    ((lutUnit.apply ⟨[2], [1, 0]⟩).shape = [2] ++ [2] ∧
      (lutUnit.apply ⟨[2], [1, 0]⟩).shape.length = [2].length + 1 ∧
      ∃ hlt : ((IntTensor.mk [2] [1, 0]).data.getD 1 0).toNat < 2,
        (lutUnit.apply ⟨[2], [1, 0]⟩).data.getD (1 * 2 + (0 : Fin 2).1) 0 =
          lutUnit.W ⟨((IntTensor.mk [2] [1, 0]).data.getD 1 0).toNat, hlt⟩ (0 : Fin 2) +
            lutUnit.b (0 : Fin 2)) :=
  ⟨⟨by decide, by decide⟩,
    lookup_apply_embeds 2 2 lutUnit ⟨[2], [1, 0]⟩ 1 0 (by decide) (by decide)⟩

/-! ### src/rnn/build_model/build_model_cw.py -/

/-- The transition list built at lines 59-64 of build_model_cw.py:
`[ClockworkBase(dim=state_dim, activation=Tanh(), period=2 ** (layers - i - 1))
  for i in range(layers)]`.
`tanh` stands for the Tanh activation brick and `Winit i` for the weight
matrix the i-th brick ends up with after `rnn.initialize()` draws it. -/
def build_model_cw_transitions (state_dim layers : Nat) (tanh : ℚ → ℚ)
    (Winit : Nat → Matrix (Fin state_dim) (Fin state_dim) ℚ) :
    List ClockworkBase :=
  (List.range layers).map fun i =>
    ⟨state_dim, 2 ^ (layers - i - 1), tanh, Winit i⟩

/-- C4: build_model_cw with `layers = L` builds exactly L ClockworkBase
transitions; transition i has period 2^(L - i - 1); the periods strictly
decrease along the list (so distinct layers have different fixed
powers-of-two periods) and each one is half its predecessor. -/
theorem build_model_cw_transitions_periods (state_dim L : Nat) (tanh : ℚ → ℚ)
    (Winit : Nat → Matrix (Fin state_dim) (Fin state_dim) ℚ) :
    (build_model_cw_transitions state_dim L tanh Winit).length = L ∧
    ((build_model_cw_transitions state_dim L tanh Winit).map ClockworkBase.period =
      (List.range L).map fun i => 2 ^ (L - i - 1)) ∧
    List.Pairwise (fun a b => b < a)
      ((build_model_cw_transitions state_dim L tanh Winit).map ClockworkBase.period) ∧
    (∀ i, i + 1 < L →
      2 * ((build_model_cw_transitions state_dim L tanh Winit).map
            ClockworkBase.period).getD (i + 1) 0 =
        ((build_model_cw_transitions state_dim L tanh Winit).map
            ClockworkBase.period).getD i 0) := by
  have hmap : (build_model_cw_transitions state_dim L tanh Winit).map
      ClockworkBase.period = (List.range L).map fun i => 2 ^ (L - i - 1) := by
    simp [build_model_cw_transitions, List.map_map, Function.comp]
  refine ⟨by simp [build_model_cw_transitions], hmap, ?_, ?_⟩
  · rw [hmap]
    refine List.Pairwise.map _ ?_
      (List.Pairwise.and_mem.mp (List.pairwise_lt_range L))
    rintro a b ⟨-, hb, hab⟩
    have hb' : b < L := List.mem_range.mp hb
    exact Nat.pow_lt_pow_right one_lt_two (by omega)
  · intro i hi
    rw [hmap]
    rw [List.getD_eq_getElem?_getD, List.getD_eq_getElem?_getD]
    rw [List.getElem?_map, List.getElem?_map]
    rw [List.getElem?_range (by omega : i + 1 < L), List.getElem?_range (by omega : i < L)]
    simp only [Option.map_some', Option.getD_some]
    have : L - i - 1 = (L - (i + 1) - 1) + 1 := by omega
    rw [this, pow_succ]
    ring

theorem build_model_cw_transitions_periods_witness :
    0 + 1 < 3 ∧
    2 * ((build_model_cw_transitions 1 3 id fun _ => 1).map
          ClockworkBase.period).getD 1 0 =
      ((build_model_cw_transitions 1 3 id fun _ => 1).map
          ClockworkBase.period).getD 0 0 :=
  ⟨by decide,
    (build_model_cw_transitions_periods 1 3 id fun _ => 1).2.2.2 0 (by decide)⟩

/-- Row-major flattening of the two leading axes of a (T, B, ...) tensor:
the source reshape `(time, batch, feat) → (batch * time, feat)` keeps the
row-major entry order, so flat row r holds pair (r / B, r % B). -/
theorem snd_extent_pos {T B : Nat} (r : Fin (T * B)) : 0 < B := by
  rcases Nat.eq_zero_or_pos B with h0 | h0
  · exact absurd r.2 (by simp [h0])
  · exact h0

def flatten2 {T B : Nat} {α : Type} (f : Fin T → Fin B → α) : Fin (T * B) → α :=
  fun r =>
    f ⟨r.1 / B, (Nat.div_lt_iff_lt_mul (snd_extent_pos r)).mpr r.2⟩
      ⟨r.1 % B, Nat.mod_lt _ (snd_extent_pos r)⟩

/-- The time index of the full sequence reached by dropping the first
`context` timesteps (the slice `[context:]`) and stepping to position t. -/
def sliceIdx (context : Nat) {T : Nat} (t : Fin (T - context)) : Fin T :=
  ⟨context + t.1, by have ht := t.2; omega⟩

/-- The row-major flat position of entry (t, b) of a (T, B) array. -/
def flatIdx {T B : Nat} (t : Fin T) (b : Fin B) : Fin (T * B) :=
  ⟨t.1 * B + b.1, by
    have ht := t.2
    have hb := b.2
    calc t.1 * B + b.1 < t.1 * B + B := by omega
      _ = (t.1 + 1) * B := by ring
      _ ≤ T * B := Nat.mul_le_mul_right B ht⟩

theorem flatten2_flatIdx {T B : Nat} {α : Type} (f : Fin T → Fin B → α)
    (t : Fin T) (b : Fin B) : flatten2 f (flatIdx t b) = f t b := by
  have hB : 0 < B := b.pos
  have hdiv : (t.1 * B + b.1) / B = t.1 := by
    rw [Nat.mul_comm t.1 B, Nat.mul_add_div hB, Nat.div_eq_of_lt b.2, Nat.add_zero]
  have hmod : (t.1 * B + b.1) % B = b.1 := by
    rw [Nat.mul_comm t.1 B, Nat.mul_add_mod, Nat.mod_eq_of_lt b.2]
  have key : ∀ (i : Fin T) (j : Fin B), i.1 = t.1 → j.1 = b.1 → f i j = f t b := by
    intro i j hi hj
    rw [show i = t from Fin.ext hi, show j = b from Fin.ext hj]
  exact key _ _ hdiv hmod

/-- The `Linear` brick of the framework, used as `output_layer` in
build_model_cw: output = input · W + b, with W of shape
(input_dim, output_dim) and b of shape (output_dim,). -/
structure LinearBrick (input_dim output_dim : Nat) where
  W : Matrix (Fin input_dim) (Fin output_dim) ℚ
  b : Fin output_dim → ℚ

/-- `presoft = output_layer.apply(h[context:, :, :])` from build_model_cw.py
line 127: the hidden-state tensor h (Time × Batch × feature, the
concatenation over layers) loses its first `context` timesteps and goes
through the output layer. -/
def build_presoft (context : Nat) {T B F V : Nat} (ol : LinearBrick F V)
    (h : Fin T → Fin B → Fin F → ℚ) :
    Fin (T - context) → Fin B → Fin V → ℚ :=
  fun t b v => (∑ k, h (sliceIdx context t) b k * ol.W k v) + ol.b v

/-- The framework's `Softmax().categorical_cross_entropy(y, x)` for a 2D
score matrix x and an integer target vector y: row r costs
`-log softmax(x r)[y r] = log (∑ j, exp (x r j)) - x r (y r)`. `exp` and
`log` are the (framework-supplied) elementwise exponential and natural
logarithm, kept abstract. -/
def categorical_cross_entropy (exp log : ℚ → ℚ) {n V : Nat}
    (y : Fin n → Fin V) (x : Fin n → Fin V → ℚ) : Fin n → ℚ :=
  fun r => log (∑ j, exp (x r j)) - x r (y r)

/-- The `cross_entropy` variable of build_model_cw.py lines 129-139:
`Softmax().categorical_cross_entropy(y[context:, :].flatten(),
presoft.reshape((batch * time, feat))) / tensor.log(2)`, where presoft has
shape (time, batch, feat) after the context timesteps were dropped and both
reshape and flatten are row-major. -/
def build_cross_entropy (exp log : ℚ → ℚ) (context : Nat) {T B F V : Nat}
    (ol : LinearBrick F V) (h : Fin T → Fin B → Fin F → ℚ)
    (y : Fin T → Fin B → Fin V) : Fin ((T - context) * B) → ℚ :=
  fun r =>
    categorical_cross_entropy exp log
      (flatten2 fun t b => y (sliceIdx context t) b)
      (flatten2 (build_presoft context ol h)) r / log 2

/-- The `cost` variable (named "regularized_cost") of build_model_cw.py
lines 141-145: `cost = cross_entropy + tensor.log(1)`, the log(1) being
added only to obtain a distinct graph variable for monitoring. -/
def build_cost (exp log : ℚ → ℚ) (context : Nat) {T B F V : Nat}
    (ol : LinearBrick F V) (h : Fin T → Fin B → Fin F → ℚ)
    (y : Fin T → Fin B → Fin V) : Fin ((T - context) * B) → ℚ :=
  fun r => build_cross_entropy exp log context ol h y r + log 1

/-- C6: at the flat row holding token (t, b), the cross_entropy returned by
build_model_cw is the softmax categorical cross-entropy of the output layer's
scores for that token (computed on the hidden states with the first context
timesteps dropped) against the ground-truth target y[context + t, b],
divided by log 2 — bits per token, with predictions and targets aligned by
the row-major reshape and flatten. -/
theorem build_cross_entropy_per_token (exp log : ℚ → ℚ) (context : Nat)
    {T B F V : Nat} (ol : LinearBrick F V) (h : Fin T → Fin B → Fin F → ℚ)
    (y : Fin T → Fin B → Fin V) (t : Fin (T - context)) (b : Fin B) :
    build_cross_entropy exp log context ol h y (flatIdx t b) =
      (log (∑ j, exp (build_presoft context ol h t b j)) -
        build_presoft context ol h t b (y (sliceIdx context t) b)) / log 2 := by
  unfold build_cross_entropy categorical_cross_entropy
  rw [flatten2_flatIdx, flatten2_flatIdx]

/-- C7: whenever log 1 = 0 (as it does for the framework's natural
logarithm), the regularized_cost and the cross_entropy of build_model_cw are
pointwise equal — the added regularization term log(1) contributes nothing. -/
theorem build_cost_eq_cross_entropy (exp log : ℚ → ℚ) (context : Nat)
    {T B F V : Nat} (ol : LinearBrick F V) (h : Fin T → Fin B → Fin F → ℚ)
    (y : Fin T → Fin B → Fin V) (hlog : log 1 = 0) :
    build_cost exp log context ol h y =
      build_cross_entropy exp log context ol h y := by
  funext r
  rw [build_cost, hlog, add_zero]

/-- A concrete output layer for the cost witness. -/
def olUnit : LinearBrick 1 1 := ⟨Matrix.of fun _ _ => 2, fun _ => 3⟩

theorem build_cost_eq_cross_entropy_witness :
    (fun _ : ℚ => (0 : ℚ)) 1 = 0 ∧
    build_cost (fun q => q) (fun _ => 0) 0 (T := 1) (B := 1) olUnit
        (fun _ _ _ => 5) (fun _ _ => 0) =
      build_cross_entropy (fun q => q) (fun _ => 0) 0 olUnit
        (fun _ _ _ => 5) (fun _ _ => 0) :=
  ⟨rfl, build_cost_eq_cross_entropy (fun q => q) (fun _ => 0) 0 olUnit
    (fun _ _ _ => 5) (fun _ _ => 0) rfl⟩

end RNNExp
